import Mathlib

/-!
Verification of the OxiDB Python client and test helpers against the
natural-language specification of the system.

The definitions below are shallow embeddings of the Python source:
  - `src/python/oxidb.py` (the `OxiDbClient` class),
  - the checksum helpers of `src/examples/python/test_occ_and_integrity.py`
    and `src/examples/python/test_crash_recovery.py`,
  - the cosine-similarity helper of `src/examples/python/test_vector.py`.
Server-side behaviour (the storage engine is not part of the Python
sources) is modelled from the specification where a claim requires it;
such definitions are marked `Modelled from the spec`.

Bytes are modelled as natural numbers below 256, byte strings as
`List Nat`, and Python `str` values as `String` or `List Char`.
-/

/-- A JSON-like document value as handled by the Python client:
`null`, booleans, integers, strings, arrays, and objects.  A Python
`dict` is modelled as an association list in insertion order (keys are
unique in a Python dict, which appears as a `Nodup` hypothesis where it
matters).  Floats are not needed by any claim and are omitted. -/
inductive JsonValue where
  | null : JsonValue
  | bool (b : Bool) : JsonValue
  | int (n : Int) : JsonValue
  | str (s : String) : JsonValue
  | arr (xs : List JsonValue) : JsonValue
  | obj (fields : List (String × JsonValue)) : JsonValue

/-- Substring test on character lists: `needle` occurs contiguously in
`hay`.  Embeds the Python expression `needle in hay`. -/
def containsSub (needle hay : List Char) : Bool :=
  List.any (List.range (hay.length + 1)) (fun i => needle.isPrefixOf (hay.drop i))

/-- Character-wise lowercasing; embeds Python `str.lower()` for the
ASCII messages the server produces. -/
def lowerChars (s : List Char) : List Char := s.map Char.toLower

/-- A parsed server response.  The wire format (§6) is
`{"ok": true, "data": ...}` or `{"ok": false, "error": "..."}`;
`error = none` models a response without an `"error"` key, in which case
`resp.get("error", "unknown error")` yields the default. -/
structure WireResponse where
  ok : Bool
  error : Option String
  data : Option JsonValue

/-- The Python test `"conflict" in error_msg.lower()` from
`OxiDbClient._checked` (oxidb.py line 98). -/
def isConflictMessage (msg : String) : Bool :=
  containsSub "conflict".toList (lowerChars msg.toList)

/-- Outcome of `OxiDbClient._checked`: either a normal return of the
`data` field, or one of the two exception classes of oxidb.py. -/
inductive CheckedOutcome where
  | returns (v : Option JsonValue) : CheckedOutcome
  | raisesConflictError (msg : String) : CheckedOutcome
  | raisesOxiDbError (msg : String) : CheckedOutcome

/-- Embedding of `OxiDbClient._checked` (oxidb.py lines 93-101):
on `ok` return the `data` field; otherwise read the error message
(defaulting to "unknown error"), raise `TransactionConflictError` when
the lowercased message contains "conflict", else raise `OxiDbError`. -/
def checked (resp : WireResponse) : CheckedOutcome :=
  if resp.ok then .returns resp.data
  else
    if isConflictMessage (resp.error.getD "unknown error") then
      .raisesConflictError (resp.error.getD "unknown error")
    else
      .raisesOxiDbError (resp.error.getD "unknown error")

/-- Embedding of the loop in `OxiDbClient._recv_exact` (oxidb.py lines
78-85).  The socket is modelled by `stream`, the sequence of bytes the
peer will deliver before closing the connection, and `sizes`, an
adversarial oracle giving the chunk size each `recv(k)` call returns
(clipped to `[1, k]`: a TCP `recv` on a stream with data returns at
least one and at most `k` bytes; an empty return means the peer
closed).  Every successful `recv` returns at least one needed byte, so
the loop makes at most `need` iterations; the first argument counts the
remaining permitted iterations and is initialised to `need`.
`none` models the `ConnectionError` raised on early close. -/
def recvExactGo : Nat → Nat → List Nat → List Nat → Option (List Nat)
  | _, 0, _, _ => some []
  | 0, _ + 1, _, _ => none
  | _ + 1, _ + 1, [], _ => none
  | fuel + 1, n + 1, b :: rest, sizes =>
    (recvExactGo fuel (n + 1 - (List.take (min (max (sizes.headD (n + 1)) 1) (n + 1)) (b :: rest)).length)
        (List.drop (min (max (sizes.headD (n + 1)) 1) (n + 1)) (b :: rest)) sizes.tail).map
      (fun more => List.take (min (max (sizes.headD (n + 1)) 1) (n + 1)) (b :: rest) ++ more)

/-- Embedding of `OxiDbClient._recv_exact(n)` on a socket modelled by `stream` and
chunking oracle `sizes`. -/
def recvExact (n : Nat) (stream sizes : List Nat) : Option (List Nat) :=
  recvExactGo n n stream sizes

/-- Embedding of `struct.pack("<I", n)` (oxidb.py line 71): the four
bytes of `n` in unsigned little-endian order. -/
def le32 (n : Nat) : List Nat :=
  [n % 256, n / 256 % 256, n / 65536 % 256, n / 16777216 % 256]

/-- Embedding of `struct.unpack("<I", b)[0]` (oxidb.py line 75). -/
def decodeLE32 (bytes : List Nat) : Nat :=
  bytes.getD 0 0 + 256 * bytes.getD 1 0 + 65536 * bytes.getD 2 0
    + 16777216 * bytes.getD 3 0

/-- Embedding of `OxiDbClient._send_raw` (oxidb.py lines 70-71): the
bytes put on the wire for a payload `data` (the UTF-8 JSON encoding of
the request dictionary). -/
def sendRaw (data : List Nat) : List Nat := le32 data.length ++ data

/-- Embedding of `OxiDbClient._recv_raw` (oxidb.py lines 73-76): read
exactly 4 bytes, decode them as a little-endian length, then read
exactly that many payload bytes (both reads via `_recv_exact`, whose
exact-read behaviour is established by `C8_recv_exact_spec`).  Returns
the payload bytes handed to `json.loads` together with the unread
remainder of the stream; `none` models the `ConnectionError` on a
stream that ends too early. -/
def recvRaw (stream : List Nat) : Option (List Nat × List Nat) :=
  if 4 ≤ stream.length then
    if decodeLE32 (List.take 4 stream) ≤ (List.drop 4 stream).length then
      some (List.take (decodeLE32 (List.take 4 stream)) (List.drop 4 stream),
            List.drop (decodeLE32 (List.take 4 stream)) (List.drop 4 stream))
    else none
  else none

/-- A Python exception as relevant to `OxiDbClient.transaction`: either
an `OxiDbError` (with `conflict = true` for the `TransactionConflictError`
subclass) or any other exception (`ValueError` from the body,
`ConnectionError` from the socket layer, ...). -/
inductive PyExc where
  | oxidb (conflict : Bool) (msg : String) : PyExc
  | other (name : String) : PyExc
deriving DecidableEq

/-- The `except OxiDbError` test in the context manager: `OxiDbError`
and its subclass `TransactionConflictError` match, others do not. -/
def PyExc.isOxiDbError : PyExc → Bool
  | .oxidb _ _ => true
  | .other _ => false

/-- The transaction commands a run of the context manager sends. -/
inductive TxCmd where
  | beginCmd : TxCmd
  | commitCmd : TxCmd
  | rollbackCmd : TxCmd
deriving DecidableEq

/-- Embedding of the `OxiDbClient.transaction` context manager
(oxidb.py lines 230-255).  The four arguments are the outcomes of
`begin_tx()`, the body of the `with` block, `commit_tx()` and
`rollback_tx()` (the last two are consulted only if reached).  The
result is the list of transaction commands issued, in order, and the
overall outcome (`.ok` for normal completion, `.error e` for the
exception that propagates to the caller).  Python semantics: the bare
`raise` re-raises the original exception, but an exception raised
inside the `except OxiDbError` handler other than `OxiDbError` itself
propagates instead of the original. -/
def transactionRun (beginRes body commitRes rollbackRes : Except PyExc Unit) :
    List TxCmd × Except PyExc Unit :=
  match beginRes with
  | .error e => ([.beginCmd], .error e)
  | .ok _ =>
    match body with
    | .ok _ =>
      match commitRes with
      | .ok _ => ([.beginCmd, .commitCmd], .ok ())
      | .error e =>
        match rollbackRes with
        | .ok _ => ([.beginCmd, .commitCmd, .rollbackCmd], .error e)
        | .error r =>
          if r.isOxiDbError then ([.beginCmd, .commitCmd, .rollbackCmd], .error e)
          else ([.beginCmd, .commitCmd, .rollbackCmd], .error r)
    | .error e =>
      match rollbackRes with
      | .ok _ => ([.beginCmd, .rollbackCmd], .error e)
      | .error r =>
        if r.isOxiDbError then ([.beginCmd, .rollbackCmd], .error e)
        else ([.beginCmd, .rollbackCmd], .error r)

/-- The method names defined on `class OxiDbClient` in
`src/python/oxidb.py`, transcribed in order of definition (lines
39-320). -/
def oxidbClientMethods : List String :=
  ["__init__", "__enter__", "__exit__", "close", "_send_raw", "_recv_raw",
   "_recv_exact", "_request", "_checked", "ping", "create_collection",
   "list_collections", "drop_collection", "insert", "insert_many", "find",
   "find_one", "update", "update_one", "delete", "delete_one", "count",
   "create_index", "create_unique_index", "create_composite_index",
   "aggregate", "compact", "begin_tx", "commit_tx", "rollback_tx",
   "transaction", "create_bucket", "list_buckets", "delete_bucket",
   "put_object", "get_object", "head_object", "delete_object",
   "list_objects", "search"]

/-- The client methods that the spec's core-relevant command set lists
and that the vector/demo test scripts invoke on `OxiDbClient`
(test_vector.py lines 75-322, remote_demo.py lines 100-354). -/
def requiredIndexMethods : List String :=
  ["create_vector_index", "create_text_index", "list_indexes", "drop_index",
   "vector_search"]

/-- The standard base64 alphabet used by Python's `base64.b64encode`. -/
def b64Alphabet : List Char :=
  "ABCDEFGHIJKLMNOPQRSTUVWXYZabcdefghijklmnopqrstuvwxyz0123456789+/".toList

/-- The character encoding a 6-bit value. -/
def b64Char (k : Nat) : Char := b64Alphabet.getD k 'A'

/-- Index of a character in `alpha`, counting from `i`. -/
def b64ValGo (c : Char) (alpha : List Char) (i : Nat) : Option Nat :=
  match alpha with
  | [] => none
  | a :: rest => if a = c then some i else b64ValGo c rest (i + 1)

/-- The 6-bit value of a base64 character; `none` for characters
outside the alphabet (including the padding character). -/
def b64Val (c : Char) : Option Nat := b64ValGo c b64Alphabet 0

/-- Embedding of `base64.b64encode`: each 3-byte group becomes 4
alphabet characters; a trailing 1- or 2-byte group is padded with
`'='`. -/
def b64Encode : List Nat → List Char
  | [] => []
  | [b0] => [b64Char (b0 / 4), b64Char (b0 % 4 * 16), '=', '=']
  | [b0, b1] =>
    [b64Char (b0 / 4), b64Char (b0 % 4 * 16 + b1 / 16), b64Char (b1 % 16 * 4), '=']
  | b0 :: b1 :: b2 :: rest =>
    b64Char (b0 / 4) :: b64Char (b0 % 4 * 16 + b1 / 16)
      :: b64Char (b1 % 16 * 4 + b2 / 64) :: b64Char (b2 % 64) :: b64Encode rest

/-- Embedding of `base64.b64decode` on well-formed input: groups of 4
characters become 3 bytes; `'='` padding (legal only at the very end)
closes a 1- or 2-byte final group; a length not divisible by 4 or a
character outside the alphabet yields an error (`none`). -/
def b64Decode : List Char → Option (List Nat)
  | [] => some []
  | c0 :: c1 :: c2 :: c3 :: rest =>
    if c3 = '=' then
      if rest = [] then
        if c2 = '=' then
          match b64Val c0, b64Val c1 with
          | some v0, some v1 => some [v0 * 4 + v1 / 16]
          | _, _ => none
        else
          match b64Val c0, b64Val c1, b64Val c2 with
          | some v0, some v1, some v2 =>
            some [v0 * 4 + v1 / 16, v1 % 16 * 16 + v2 / 4]
          | _, _, _ => none
      else none
    else
      match b64Val c0, b64Val c1, b64Val c2, b64Val c3, b64Decode rest with
      | some v0, some v1, some v2, some v3, some tail =>
        some ((v0 * 4 + v1 / 16) :: (v1 % 16 * 16 + v2 / 4) :: (v2 % 4 * 64 + v3) :: tail)
      | _, _, _, _, _ => none
  | _ => none

/-- The base64 text placed in the `"data"` field of the `put_object`
request payload (oxidb.py line 281). -/
def putObjectDataField (data : List Nat) : List Char := b64Encode data

/-- The client-side decode `base64.b64decode(result["content"])` in
`get_object` (oxidb.py line 291), applied to a response whose
`"content"` field is the given text. -/
def getObjectDecode (content : List Char) : Option (List Nat) := b64Decode content

/-- Dot product of two vectors, `sum(x * y for x, y in zip(a, b))` from
the test helper (test_vector.py line 46).  Python floats are modelled
as real numbers. -/
noncomputable def dotList (a b : List ℝ) : ℝ := (List.zipWith (fun x y => x * y) a b).sum

/-- Euclidean norm `math.sqrt(sum(x * x for x in a))` (test_vector.py
lines 47-48). -/
noncomputable def vecNorm (a : List ℝ) : ℝ := Real.sqrt (dotList a a)

/-- Embedding of the test's `cosine_similarity` helper (test_vector.py
lines 45-51): `0.0` when either norm is zero, else
`dot / (na * nb)`. -/
noncomputable def cosine_similarity (a b : List ℝ) : ℝ :=
  if vecNorm a = 0 ∨ vecNorm b = 0 then 0 else dotList a b / (vecNorm a * vecNorm b)

/-- Modelled from the spec §4.3: the vector index's cosine metric
returns `1 − dist/2` as a similarity, with cosine distance
`dist = 1 − cos`. -/
noncomputable def specCosineScore (a b : List ℝ) : ℝ := 1 - (1 - cosine_similarity a b) / 2

/-- The §8 reference formula `(1 + cos(target, doc))/2`, as computed by
`expected_sim` in the test (test_vector.py line 182). -/
noncomputable def referenceCosineScore (a b : List ℝ) : ℝ := (1 + cosine_similarity a b) / 2

/-- Modelled from the spec: the server's storage engine is not part of
the Python sources.  §4.2 DIDX maps each document id to its current
version; here a store is an association list `id → (version, document)`
with the document content abstract. -/
def didxLookup {α : Type} (store : List (String × Nat × α)) (id : String) : Option (Nat × α) :=
  match store with
  | [] => none
  | (k, e) :: rest => if k = id then some e else didxLookup rest id

/-- Modelled from the spec §4.2/§4.4: replace the document stored
under `id` with the result of applying `f` to it, assigning the new
`_version` as current + 1 (spec commit step 4); entries for other ids
are untouched. -/
def didxReplace {α : Type} :
    List (String × Nat × α) → String → (α → α) → List (String × Nat × α)
  | [], _, _ => []
  | (k, e) :: rest, id, f =>
    if k = id then (k, e.1 + 1, f e.2) :: didxReplace rest id f
    else (k, e) :: didxReplace rest id f

/-- Modelled from the spec §4.4 (non-transactional calls): an update
outside a transaction runs as an implicit single-statement transaction
with the same commit discipline; the commit assigns the new `_version`
as current + 1 and installs the document produced by the update
operators (§4.6), here abstracted as `f`. -/
def nonTxUpdate {α : Type} (store : List (String × Nat × α)) (id : String) (f : α → α) :
    List (String × Nat × α) :=
  didxReplace store id f

/-- Modelled from the spec §4.4: one entry of a transaction's write
set, `id → { new_doc, read_version? }`. -/
structure TxWrite (α : Type) where
  readVersion : Option Nat
  newDoc : α

/-- Modelled from the spec §4.4 commit step 2: for every id in the
write set with a recorded `read_version`, look up DIDX's current
version; validation fails if it differs or the document no longer
exists. -/
def occValidate {α : Type} (store : List (String × Nat × α))
    (ws : List (String × TxWrite α)) : Bool :=
  ws.all (fun w =>
    match w.2.readVersion with
    | none => true
    | some rv =>
      match didxLookup store w.1 with
      | some (v, _) => v == rv
      | none => false)

/-- Modelled from the spec §4.4 commit steps 4-6: assign new versions
(current + 1) and apply the staged documents to DIDX. -/
def applyWrites {α : Type} (store : List (String × Nat × α))
    (ws : List (String × TxWrite α)) : List (String × Nat × α) :=
  ws.foldl (fun s w => didxReplace s w.1 (fun _ => w.2.newDoc)) store

/-- Outcome of the commit path. -/
inductive CommitOutcome (α : Type) where
  | committed (store : List (String × Nat × α)) : CommitOutcome α
  | conflictErr (msg : String) : CommitOutcome α

/-- Modelled from the spec §7: the `TransactionConflict` error message
must contain the substring "conflict". -/
def transactionConflictMsg : String := "transaction conflict: document version changed"

/-- Modelled from the spec §4.4 commit path: validate under the
commit lock, then either apply the write set or fail with
`TransactionConflict`. -/
def txCommit {α : Type} (store : List (String × Nat × α))
    (ws : List (String × TxWrite α)) : CommitOutcome α :=
  if occValidate store ws then .committed (applyWrites store ws)
  else .conflictErr transactionConflictMsg

/-- Modelled from the spec §4.4: for `$inc` the implicit transaction
MUST be serialized with other commits on the same document, so a
concurrent execution of atomic increments is a sequence of
read-modify-writes in some interleaving order; `trace` lists the worker
performing each successive increment of the shared counter. -/
def runIncTrace (store : List (String × Nat × Int)) (id : String) (trace : List Nat) :
    List (String × Nat × Int) :=
  trace.foldl (fun s _ => nonTxUpdate s id (fun x => x + 1)) store

/-- The metadata keys excluded by the test suites' checksum helpers:
`("_id", "_version", "checksum")`. -/
def metaKeys : List String := ["_id", "_version", "checksum"]

/-- Ordering of dictionary items by key, as used by Python's
`sorted(doc.items())`: tuples compare by first component, and the keys
of a dict are distinct, so the comparison never reaches the values. -/
def keyLE (a b : String × JsonValue) : Prop := a.1 ≤ b.1

instance : DecidableRel keyLE := fun a b => inferInstanceAs (Decidable (a.1 ≤ b.1))

instance : IsTotal (String × JsonValue) keyLE := ⟨fun a b => le_total a.1 b.1⟩

instance : IsTrans (String × JsonValue) keyLE := ⟨fun _ _ _ h1 h2 => le_trans h1 h2⟩

/-- Strict key ordering, used to show that a sorted item list with
distinct keys is uniquely determined. -/
def keyLT (a b : String × JsonValue) : Prop := a.1 < b.1

instance : IsAntisymm (String × JsonValue) keyLT :=
  ⟨fun _ _ h1 h2 => absurd h2 (lt_asymm h1)⟩

/-- A stable sort of dictionary items by key; embeds Python's
`sorted(doc.items())` and the key ordering of
`json.dumps(..., sort_keys=True)`. -/
def sortItems (d : List (String × JsonValue)) : List (String × JsonValue) :=
  List.insertionSort keyLE d

/-- The filter `if k not in ("_id", "_version", "checksum")` of the
checksum helpers. -/
def filterMeta (d : List (String × JsonValue)) : List (String × JsonValue) :=
  d.filter (fun kv => decide (kv.1 ∉ metaKeys))

mutual

/-- Renders a JSON value in the style of `json.dumps` (default
separators `", "` and `": "`).  Nested objects are rendered in stored
order; the claims below compare documents with equal values, for which
nested key order coincides, so the recursive re-sorting that
`sort_keys=True` also performs does not affect them. -/
def renderValue : JsonValue → String
  | .null => "null"
  | .bool true => "true"
  | .bool false => "false"
  | .int n => toString n
  | .str s => "\"" ++ s ++ "\""
  | .arr xs => "[" ++ renderArray xs ++ "]"
  | .obj fs => "\x7b" ++ renderFields fs ++ "\x7d"

/-- Renders the comma-separated elements of a JSON array. -/
def renderArray : List JsonValue → String
  | [] => ""
  | [x] => renderValue x
  | x :: y :: rest => renderValue x ++ ", " ++ renderArray (y :: rest)

/-- Renders the comma-separated `"key": value` pairs of a JSON
object. -/
def renderFields : List (String × JsonValue) → String
  | [] => ""
  | [kv] => "\"" ++ kv.1 ++ "\": " ++ renderValue kv.2
  | kv :: kv2 :: rest =>
    "\"" ++ kv.1 ++ "\": " ++ renderValue kv.2 ++ ", " ++ renderFields (kv2 :: rest)

end

/-- Embedding of `json.dumps(filtered, sort_keys=True)` applied to a top-level
dictionary given as an item list: keys sorted, then rendered. -/
def dumpsDict (items : List (String × JsonValue)) : String :=
  "\x7b" ++ renderFields (sortItems items) ++ "\x7d"

/-- Embedding of the `checksum` helper of test_occ_and_integrity.py
(lines 55-58) and the identical `checksum_doc` of
test_crash_recovery.py (lines 125-127):
`filtered = {k: v for k, v in sorted(doc.items()) if k not in
("_id", "_version", "checksum")}` followed by
`sha256(json.dumps(filtered, sort_keys=True).encode()).hexdigest()[:16]`.
The parameter `H` stands for `hashlib.sha256(...).hexdigest()`, an
arbitrary deterministic function of the serialized text; the claim is
proved for every such function. -/
def checksumWith (H : String → String) (doc : List (String × JsonValue)) : String :=
  (H (dumpsDict (filterMeta (sortItems doc)))).take 16

/-- Dictionary lookup `doc[k]`, first match on the key. -/
def lookupKey (k : String) : List (String × JsonValue) → Option JsonValue
  | [] => none
  | kv :: rest => if kv.1 = k then some kv.2 else lookupKey k rest

/-- C1: for every server response processed by `_checked`: if `ok` is
true the value of the `data` field is returned; if `ok` is false the
call never returns normally, and it raises `TransactionConflictError`
precisely when the lowercased error message contains the substring
"conflict", raising `OxiDbError` with that message otherwise. -/
theorem C1_checked_response (resp : WireResponse) :
    (resp.ok = true → checked resp = .returns resp.data) ∧
    (resp.ok = false →
      (∀ v, checked resp ≠ .returns v) ∧
      (isConflictMessage (resp.error.getD "unknown error") = true →
        checked resp = .raisesConflictError (resp.error.getD "unknown error")) ∧
      (isConflictMessage (resp.error.getD "unknown error") = false →
        checked resp = .raisesOxiDbError (resp.error.getD "unknown error"))) := by
  unfold checked
  rcases resp with ⟨ok, error, data⟩
  cases ok
  · refine ⟨by simp, fun _ => ⟨?_, ?_, ?_⟩⟩
    · intro v
      by_cases h : isConflictMessage (error.getD "unknown error") = true <;> simp [h]
    · intro h; simp [h]
    · intro h; simp [h]
  · simp

/-- Witness for C1 at a concrete conflicting error response. -/
theorem C1_checked_response_witness :
    checked ⟨false, some "Transaction Conflict: version mismatch", none⟩ =
      .raisesConflictError "Transaction Conflict: version mismatch" :=
  (((C1_checked_response ⟨false, some "Transaction Conflict: version mismatch", none⟩).2
    rfl).2.1) (by decide)

theorem recvExactGo_eq (fuel : Nat) :
    ∀ need stream sizes, need ≤ fuel →
      recvExactGo fuel need stream sizes =
        if need ≤ (stream : List Nat).length then some (stream.take need) else none := by
  induction fuel with
  | zero =>
    intro need stream sizes h
    interval_cases need
    simp [recvExactGo]
  | succ fuel ih =>
    intro need stream sizes h
    match need, stream with
    | 0, stream => simp [recvExactGo]
    | n + 1, [] => simp [recvExactGo]
    | n + 1, b :: rest =>
      rw [recvExactGo]
      have hlt : (List.take (min (max (sizes.headD (n + 1)) 1) (n + 1)) (b :: rest)).length
          = min (min (max (sizes.headD (n + 1)) 1) (n + 1)) (rest.length + 1) := by
        rw [List.length_take, List.length_cons]
      have hld : (List.drop (min (max (sizes.headD (n + 1)) 1) (n + 1)) (b :: rest)).length
          = rest.length + 1 - min (max (sizes.headD (n + 1)) 1) (n + 1) := by
        rw [List.length_drop, List.length_cons]
      rw [ih _ _ sizes.tail (by rw [hlt]; omega)]
      rw [hlt, hld]
      by_cases hfit : n + 1 ≤ rest.length + 1
      · rw [if_pos (by omega), if_pos (by rw [List.length_cons]; omega)]
        have hmin : min (min (max (sizes.headD (n + 1)) 1) (n + 1)) (rest.length + 1)
            = min (max (sizes.headD (n + 1)) 1) (n + 1) := by omega
        rw [hmin]
        simp only [Option.map_some']
        rw [← List.take_add]
        have hsplit : min (max (sizes.headD (n + 1)) 1) (n + 1)
            + (n + 1 - min (max (sizes.headD (n + 1)) 1) (n + 1)) = n + 1 := by omega
        rw [hsplit]
      · rw [if_neg (by omega), if_neg (by rw [List.length_cons]; omega)]
        simp

/-- C8: `_recv_exact(n)` returns exactly the next `n` bytes of the
stream in order (so the buffer length is exactly `n`, never shorter),
and raises `ConnectionError` (modelled `none`) precisely when the peer
closes before `n` bytes have arrived — for every chunking of the
stream by the socket. -/
theorem C8_recv_exact_spec (n : Nat) (stream sizes : List Nat) :
    (∀ buf, recvExact n stream sizes = some buf → buf = stream.take n ∧ buf.length = n) ∧
    (recvExact n stream sizes = none ↔ stream.length < n) := by
  have h := recvExactGo_eq n n stream sizes (Nat.le_refl n)
  rw [recvExact, h]
  by_cases hle : n ≤ stream.length
  · rw [if_pos hle]
    constructor
    · intro buf hbuf
      have hb : buf = stream.take n := by
        simpa using hbuf.symm
      subst hb
      exact ⟨rfl, by simp [List.length_take]; omega⟩
    · simp
      omega
  · rw [if_neg hle]
    exact ⟨fun buf hbuf => by simp at hbuf, by simp; omega⟩

/-- Witness for C8: receiving 2 of 3 available bytes with chunk size 1. -/
theorem C8_recv_exact_spec_witness :
    ([7, 8] : List Nat) = List.take 2 [7, 8, 9] ∧ ([7, 8] : List Nat).length = 2 :=
  (C8_recv_exact_spec 2 [7, 8, 9] [1]).1 [7, 8] (by decide)

theorem decodeLE32_le32 (n : Nat) (h : n < 4294967296) : decodeLE32 (le32 n) = n := by
  simp [le32, decodeLE32]
  omega

/-- C2: for every request payload, the client transmits exactly a
4-byte unsigned little-endian length prefix equal to the byte length of
the encoded payload followed by that encoding, and the receive path
reads exactly 4 length bytes followed by exactly that many payload
bytes, delivering precisely the framed payload to the JSON parser and
leaving the rest of the stream untouched. -/
theorem C2_wire_framing (data rest : List Nat) (h : data.length < 4294967296) :
    sendRaw data = le32 data.length ++ data ∧
    (sendRaw data).length = 4 + data.length ∧
    decodeLE32 (List.take 4 (sendRaw data)) = data.length ∧
    recvRaw (sendRaw data ++ rest) = some (data, rest) := by
  have hlen4 : (le32 data.length).length = 4 := by simp [le32]
  have htake : List.take 4 (sendRaw data ++ rest) = le32 data.length := by
    rw [sendRaw, List.append_assoc, List.take_append_of_le_length (by omega), ← hlen4,
      List.take_length]
  have hdrop : List.drop 4 (sendRaw data ++ rest) = data ++ rest := by
    rw [sendRaw, List.append_assoc, List.drop_append_of_le_length (by omega), ← hlen4,
      List.drop_length]
    rfl
  have hdec : decodeLE32 (List.take 4 (sendRaw data ++ rest)) = data.length := by
    rw [htake, decodeLE32_le32 _ h]
  refine ⟨rfl, by simp [sendRaw, hlen4], ?_, ?_⟩
  · have : List.take 4 (sendRaw data) = le32 data.length := by
      rw [sendRaw, List.take_append_of_le_length (by omega), ← hlen4, List.take_length]
    rw [this, decodeLE32_le32 _ h]
  · rw [recvRaw, if_pos (by simp [sendRaw, hlen4]), hdec, hdrop,
      if_pos (by simp), List.take_left, List.drop_left]

/-- Witness for C2 on a concrete three-byte payload. -/
theorem C2_wire_framing_witness :
    recvRaw (sendRaw [5, 6, 7] ++ [9]) = some ([5, 6, 7], [9]) :=
  (C2_wire_framing [5, 6, 7] [9] (by decide)).2.2.2

/-- Counterexample to C6 as stated: if the body raises a non-OxiDb
exception (for instance a `ValueError`) and the attempted rollback then
raises a non-`OxiDbError` exception (for instance the `ConnectionError`
that `_recv_exact` raises on a dropped connection), the rollback's
exception — not the original one — propagates to the caller. -/
theorem C6_counterexample :
    (transactionRun (.ok ()) (.error (.other "ValueError")) (.ok ())
        (.error (.other "ConnectionError"))).2
      ≠ .error (.other "ValueError") := by
  simp [transactionRun, PyExc.isOxiDbError]

/-- C6 (amended): begin_tx is issued first, before the body; commit_tx
is issued iff begin_tx succeeded and the body completed without
raising; if the body (or the commit) raises, rollback_tx is attempted
and an `OxiDbError` raised by the rollback is suppressed, the original
exception propagating — unless the rollback raises a non-`OxiDbError`
exception, which propagates instead; and the run completes normally
iff begin, body and commit all succeeded. -/
theorem C6_transaction_cm (beginRes body commitRes rollbackRes : Except PyExc Unit) :
    ((transactionRun beginRes body commitRes rollbackRes).1.head? = some .beginCmd) ∧
    (.commitCmd ∈ (transactionRun beginRes body commitRes rollbackRes).1 ↔
      beginRes = .ok () ∧ body = .ok ()) ∧
    (beginRes = .ok () → ∀ e, (body = .error e ∨ (body = .ok () ∧ commitRes = .error e)) →
      .rollbackCmd ∈ (transactionRun beginRes body commitRes rollbackRes).1 ∧
      (transactionRun beginRes body commitRes rollbackRes).2 =
        (match rollbackRes with
         | .ok _ => .error e
         | .error r => if r.isOxiDbError then .error e else .error r)) ∧
    ((transactionRun beginRes body commitRes rollbackRes).2 = .ok () ↔
      beginRes = .ok () ∧ body = .ok () ∧ commitRes = .ok ()) := by
  rcases beginRes with e0 | ⟨⟩ <;>
    rcases body with e1 | ⟨⟩ <;>
      rcases commitRes with e2 | ⟨⟩ <;>
        rcases rollbackRes with e3 | ⟨⟩ <;>
          simp [transactionRun] <;>
            rcases e3 with ⟨c, m⟩ | nm <;>
              simp [PyExc.isOxiDbError]

/-- Witness for C6: body raises, rollback succeeds, the body's
exception propagates. -/
theorem C6_transaction_cm_witness :
    .rollbackCmd ∈ (transactionRun (.ok ()) (.error (.other "ValueError")) (.ok ())
        (.ok ())).1 ∧
    (transactionRun (.ok ()) (.error (.other "ValueError")) (.ok ()) (.ok ())).2 =
      Except.error (.other "ValueError") :=
  (C6_transaction_cm (.ok ()) (.error (.other "ValueError")) (.ok ()) (.ok ())).2.2.1
    rfl (.other "ValueError") (Or.inl rfl)

/-- C3 fails on the code: none of the five index/vector methods that
the spec's command set and the test scripts require is defined on
`OxiDbClient`, so each of those calls raises `AttributeError`. -/
theorem C3_vector_methods_missing :
    requiredIndexMethods.all (fun m => !(oxidbClientMethods.contains m)) = true := by
  decide

theorem b64Val_b64Char : ∀ k < 64, b64Val (b64Char k) = some k := by decide

theorem b64Char_ne_pad : ∀ k < 64, b64Char k ≠ '=' := by decide

theorem b64_roundtrip_len :
    ∀ (L : Nat) (d : List Nat), d.length ≤ L → (∀ b ∈ d, b < 256) →
      b64Decode (b64Encode d) = some d := by
  intro L
  induction L with
  | zero =>
    intro d hL hd
    match d with
    | [] => simp [b64Encode, b64Decode]
    | _ :: _ => simp at hL
  | succ L ih =>
    intro d hL hd
    match d with
    | [] => simp [b64Encode, b64Decode]
    | [b0] =>
      have hb0 : b0 < 256 := hd b0 (by simp)
      have h1 := b64Val_b64Char (b0 / 4) (by omega)
      have h2 := b64Val_b64Char (b0 % 4 * 16) (by omega)
      simp [b64Encode, b64Decode, h1, h2]
      omega
    | [b0, b1] =>
      have hb0 : b0 < 256 := hd b0 (by simp)
      have hb1 : b1 < 256 := hd b1 (by simp)
      have h1 := b64Val_b64Char (b0 / 4) (by omega)
      have h2 := b64Val_b64Char (b0 % 4 * 16 + b1 / 16) (by omega)
      have h3 := b64Val_b64Char (b1 % 16 * 4) (by omega)
      have hne := b64Char_ne_pad (b1 % 16 * 4) (by omega)
      simp [b64Encode, b64Decode, h1, h2, h3, hne]
      constructor <;> omega
    | b0 :: b1 :: b2 :: rest =>
      have hb0 : b0 < 256 := hd b0 (by simp)
      have hb1 : b1 < 256 := hd b1 (by simp)
      have hb2 : b2 < 256 := hd b2 (by simp)
      have hrest : b64Decode (b64Encode rest) = some rest := by
        refine ih rest ?_ (fun b hb => hd b (by simp [hb]))
        simp at hL
        omega
      have h1 := b64Val_b64Char (b0 / 4) (by omega)
      have h2 := b64Val_b64Char (b0 % 4 * 16 + b1 / 16) (by omega)
      have h3 := b64Val_b64Char (b1 % 16 * 4 + b2 / 64) (by omega)
      have h4 := b64Val_b64Char (b2 % 64) (by omega)
      have hne := b64Char_ne_pad (b2 % 64) (by omega)
      simp [b64Encode, b64Decode, h1, h2, h3, h4, hne, hrest]
      refine ⟨by omega, by omega, by omega⟩

/-- C9: `put_object` transmits `base64(data)` as the `"data"` field,
and `get_object` applied to a response carrying that same base64 text
returns exactly `data`: the client-side decode is a left inverse of
the encode, so a server that stores and returns content unchanged
round-trips every blob byte-for-byte. -/
theorem C9_put_get_roundtrip (data : List Nat) (h : ∀ b ∈ data, b < 256) :
    putObjectDataField data = b64Encode data ∧
    getObjectDecode (putObjectDataField data) = some data :=
  ⟨rfl, b64_roundtrip_len data.length data (Nat.le_refl _) h⟩

/-- Witness for C9 on the two-byte blob "hi". -/
theorem C9_put_get_roundtrip_witness :
    getObjectDecode (putObjectDataField [104, 105]) = some [104, 105] :=
  (C9_put_get_roundtrip [104, 105] (by decide)).2

theorem dotList_self_nonneg (a : List ℝ) : 0 ≤ dotList a a := by
  induction a with
  | nil => simp [dotList]
  | cons x xs ih =>
    have hx : 0 ≤ x * x := mul_self_nonneg x
    simp only [dotList, List.zipWith_cons_cons, List.sum_cons] at ih ⊢
    linarith

theorem dotList_sq_le (a : List ℝ) : ∀ b, (dotList a b) ^ 2 ≤ dotList a a * dotList b b := by
  induction a with
  | nil =>
    intro b
    simp [dotList]
  | cons x xs ih =>
    intro b
    cases b with
    | nil => simp [dotList]
    | cons y ys =>
      have hA := dotList_self_nonneg xs
      have hB := dotList_self_nonneg ys
      have hI := ih ys
      simp only [dotList, List.zipWith_cons_cons, List.sum_cons] at hA hB hI ⊢
      revert hA hB hI
      generalize (List.zipWith (fun x y => x * y) xs xs).sum = A
      generalize (List.zipWith (fun x y => x * y) ys ys).sum = B
      generalize (List.zipWith (fun x y => x * y) xs ys).sum = d
      intro hA hB hI
      rcases lt_or_eq_of_le hB with hBpos | hB0
      · nlinarith [sq_nonneg (x * B - y * d),
          mul_nonneg (sq_nonneg y) (sub_nonneg.mpr hI),
          mul_nonneg hB (sub_nonneg.mpr hI)]
      · rw [← hB0] at hI ⊢
        have hd2 : d ^ 2 = 0 := le_antisymm (by nlinarith) (sq_nonneg d)
        have hd : d = 0 := (pow_eq_zero_iff (by norm_num)).mp hd2
        rw [hd]
        nlinarith [mul_nonneg hA (sq_nonneg y)]

theorem abs_dotList_le (a b : List ℝ) : |dotList a b| ≤ vecNorm a * vecNorm b := by
  rw [vecNorm, vecNorm, ← Real.sqrt_mul (dotList_self_nonneg a), ← Real.sqrt_sq_eq_abs]
  exact Real.sqrt_le_sqrt (dotList_sq_le a b)

/-- C5: for vectors with nonzero norms the spec's cosine score
`1 − dist/2` (with `dist = 1 − cos`) equals the reference formula
`(1 + cos)/2` computed from the test's `cosine_similarity` helper, and
the score lies in `[0, 1]`. -/
theorem C5_cosine_score (a b : List ℝ) (ha : vecNorm a ≠ 0) (hb : vecNorm b ≠ 0) :
    specCosineScore a b = referenceCosineScore a b ∧
    0 ≤ specCosineScore a b ∧ specCosineScore a b ≤ 1 := by
  have heq : specCosineScore a b = referenceCosineScore a b := by
    rw [specCosineScore, referenceCosineScore]
    ring
  have hpa : 0 < vecNorm a := lt_of_le_of_ne (Real.sqrt_nonneg _) (Ne.symm ha)
  have hpb : 0 < vecNorm b := lt_of_le_of_ne (Real.sqrt_nonneg _) (Ne.symm hb)
  have hP : 0 < vecNorm a * vecNorm b := mul_pos hpa hpb
  have habs := abs_dotList_le a b
  have hcos : cosine_similarity a b = dotList a b / (vecNorm a * vecNorm b) := by
    rw [cosine_similarity, if_neg (by push_neg; exact ⟨ha, hb⟩)]
  have hub : cosine_similarity a b ≤ 1 := by
    rw [hcos, div_le_one hP]
    exact le_trans (le_abs_self _) habs
  have hlb : -1 ≤ cosine_similarity a b := by
    rw [hcos, le_div_iff₀ hP]
    have := neg_abs_le (dotList a b)
    linarith [abs_le.mp habs]
  refine ⟨heq, ?_, ?_⟩
  · rw [specCosineScore]; linarith
  · rw [specCosineScore]; linarith

/-- Witness for C5 at the concrete vectors `[1, 0]` and `[1, 0]`. -/
theorem C5_cosine_score_witness :
    specCosineScore [1, 0] [1, 0] = referenceCosineScore [1, 0] [1, 0] ∧
    0 ≤ specCosineScore [1, 0] [1, 0] ∧ specCosineScore [1, 0] [1, 0] ≤ 1 :=
  C5_cosine_score [1, 0] [1, 0] (by simp [vecNorm, dotList]) (by simp [vecNorm, dotList])

theorem didxLookup_nonTxUpdate {α : Type} (store : List (String × Nat × α)) (id : String)
    (f : α → α) :
    didxLookup (nonTxUpdate store id f) id
      = (didxLookup store id).map (fun e => (e.1 + 1, f e.2)) := by
  rw [nonTxUpdate]
  induction store with
  | nil => rfl
  | cons kv rest ih =>
    rcases kv with ⟨k, e⟩
    by_cases hk : k = id
    · subst hk
      simp [didxReplace, didxLookup]
    · simp [didxReplace, didxLookup, hk]
      exact ih

/-- C4: transaction T1 records read version `v` of a document under
its snapshot; a concurrent non-transactional update then modifies that
document (bumping its version); T1 stages a write of the same document
and commits.  The commit fails with `TransactionConflict`, whose
message contains "conflict" (as the client discriminates), and a read
after the failed commit observes the concurrent update's value, not
T1's staged value. -/
theorem C4_occ_conflict {α : Type} (store : List (String × Nat × α)) (id : String)
    (v : Nat) (doc docConc docStaged : α)
    (hread : didxLookup store id = some (v, doc)) :
    txCommit (nonTxUpdate store id (fun _ => docConc)) [(id, ⟨some v, docStaged⟩)]
      = .conflictErr transactionConflictMsg ∧
    isConflictMessage transactionConflictMsg = true ∧
    didxLookup (nonTxUpdate store id (fun _ => docConc)) id = some (v + 1, docConc) := by
  have hlook : didxLookup (nonTxUpdate store id (fun _ => docConc)) id
      = some (v + 1, docConc) := by
    rw [didxLookup_nonTxUpdate, hread]
    rfl
  refine ⟨?_, by decide, hlook⟩
  rw [txCommit]
  have hval : occValidate (nonTxUpdate store id (fun _ => docConc))
      [(id, ⟨some v, docStaged⟩)] = false := by
    simp [occValidate, hlook]
  rw [hval]
  simp

/-- Witness for C4: Alice's balance read at version 1, concurrently
set to 200, staged write of 150 conflicts, and the read sees 200. -/
theorem C4_occ_conflict_witness :
    txCommit (nonTxUpdate [("alice", (1, (100 : Int)))] "alice" (fun _ => 200))
        [("alice", ⟨some 1, 150⟩)] = .conflictErr transactionConflictMsg ∧
    isConflictMessage transactionConflictMsg = true ∧
    didxLookup (nonTxUpdate [("alice", (1, (100 : Int)))] "alice" (fun _ => 200)) "alice"
      = some (2, 200) :=
  C4_occ_conflict [("alice", (1, (100 : Int)))] "alice" 1 100 200 150 rfl

/-- C7: under the spec-mandated serialization of `$inc`, every
interleaving of N concurrent increments of the same document applies
each increment exactly once: all operations succeed and the final value
is the initial value plus N (and the version advances by N). -/
theorem C7_concurrent_inc (store : List (String × Nat × Int)) (id : String)
    (v : Nat) (x : Int) (trace : List Nat)
    (h : didxLookup store id = some (v, x)) :
    didxLookup (runIncTrace store id trace) id
      = some (v + trace.length, x + trace.length) := by
  induction trace generalizing store v x with
  | nil =>
    simpa [runIncTrace] using h
  | cons t ts ih =>
    rw [runIncTrace, List.foldl_cons]
    have hstep : didxLookup (nonTxUpdate store id (fun x => x + 1)) id
        = some (v + 1, x + 1) := by
      rw [didxLookup_nonTxUpdate, h]
      rfl
    have := ih (nonTxUpdate store id (fun x => x + 1)) (v + 1) (x + 1) hstep
    rw [runIncTrace] at this
    rw [this]
    congr 1
    refine Prod.ext ?_ ?_
    · simp
      omega
    · simp
      ring

/-- Witness for C7: three interleaved increments from two workers on a
counter starting at 0 yield exactly 3. -/
theorem C7_concurrent_inc_witness :
    didxLookup (runIncTrace [("counter", (1, (0 : Int)))] "counter" [0, 1, 0]) "counter"
      = some (1 + 3, 0 + 3) :=
  C7_concurrent_inc [("counter", (1, (0 : Int)))] "counter" 1 0 [0, 1, 0] rfl

theorem lookupKey_eq_some_iff {d : List (String × JsonValue)}
    (hd : (d.map Prod.fst).Nodup) (k : String) (v : JsonValue) :
    lookupKey k d = some v ↔ (k, v) ∈ d := by
  induction d with
  | nil => simp [lookupKey]
  | cons kv rest ih =>
    rcases kv with ⟨k1, v1⟩
    simp only [List.map_cons, List.nodup_cons] at hd
    by_cases hk : k1 = k
    · subst hk
      rw [lookupKey, if_pos rfl]
      simp only [List.mem_cons, Option.some_inj]
      constructor
      · intro hv
        exact Or.inl (by rw [hv])
      · rintro (hv | hv)
        · exact (Prod.mk.injEq _ _ _ _ ▸ hv).2.symm
        · exact absurd (List.mem_map_of_mem Prod.fst hv) hd.1
    · rw [lookupKey, if_neg hk]
      rw [ih hd.2]
      simp only [List.mem_cons]
      constructor
      · exact Or.inr
      · rintro (hv | hv)
        · injection hv with h1 h2
          exact absurd h1.symm hk
        · exact hv

theorem sorted_keyLT_of_keyLE {l : List (String × JsonValue)}
    (hs : List.Sorted keyLE l) (hn : (l.map Prod.fst).Nodup) :
    List.Sorted keyLT l := by
  have hne : List.Pairwise (fun a b : String × JsonValue => a.1 ≠ b.1) l := by
    unfold List.Nodup at hn
    exact List.pairwise_map.mp hn
  exact (hs.and hne).imp (fun h => lt_of_le_of_ne h.1 h.2)

/-- C10: for any two document dictionaries that agree on every key
other than `_id`, `_version` and `checksum`, the test suites' checksum
helper produces the same 16-character digest, independently of key
insertion order and of the presence or values of the three metadata
fields — for every choice of the underlying hash function. -/
theorem C10_checksum_agreement (H : String → String) (d1 d2 : List (String × JsonValue))
    (h1 : (d1.map Prod.fst).Nodup) (h2 : (d2.map Prod.fst).Nodup)
    (hagree : ∀ k, k ∉ metaKeys → lookupKey k d1 = lookupKey k d2) :
    checksumWith H d1 = checksumWith H d2 := by
  have hn1 : d1.Nodup := h1.of_map
  have hn2 : d2.Nodup := h2.of_map
  have hf1 : (filterMeta d1).Nodup := hn1.filter _
  have hf2 : (filterMeta d2).Nodup := hn2.filter _
  have hmem : ∀ (d : List (String × JsonValue)) (kv : String × JsonValue),
      kv ∈ filterMeta d ↔ kv ∈ d ∧ kv.1 ∉ metaKeys := by
    intro d kv
    simp [filterMeta, List.mem_filter]
  have hpermf : List.Perm (filterMeta d1) (filterMeta d2) := by
    refine (List.perm_ext_iff_of_nodup hf1 hf2).mpr ?_
    rintro ⟨k, v⟩
    rw [hmem, hmem]
    constructor
    · rintro ⟨hin, hk⟩
      refine ⟨?_, hk⟩
      rw [← lookupKey_eq_some_iff h2, ← hagree k hk, lookupKey_eq_some_iff h1]
      exact hin
    · rintro ⟨hin, hk⟩
      refine ⟨?_, hk⟩
      rw [← lookupKey_eq_some_iff h1, hagree k hk, lookupKey_eq_some_iff h2]
      exact hin
  have hperm1 : List.Perm (sortItems (filterMeta (sortItems d1))) (filterMeta d1) :=
    (List.perm_insertionSort keyLE _).trans ((List.perm_insertionSort keyLE d1).filter _)
  have hperm2 : List.Perm (sortItems (filterMeta (sortItems d2))) (filterMeta d2) :=
    (List.perm_insertionSort keyLE _).trans ((List.perm_insertionSort keyLE d2).filter _)
  have hk1 : ((sortItems (filterMeta (sortItems d1))).map Prod.fst).Nodup := by
    refine ((hperm1.map Prod.fst).nodup_iff).mpr ?_
    exact List.Nodup.sublist ((List.filter_sublist _).map Prod.fst) h1
  have hk2 : ((sortItems (filterMeta (sortItems d2))).map Prod.fst).Nodup := by
    refine ((hperm2.map Prod.fst).nodup_iff).mpr ?_
    exact List.Nodup.sublist ((List.filter_sublist _).map Prod.fst) h2
  have hLT1 := sorted_keyLT_of_keyLE (List.sorted_insertionSort keyLE _) hk1
  have hLT2 := sorted_keyLT_of_keyLE (List.sorted_insertionSort keyLE _) hk2
  have hcanon : sortItems (filterMeta (sortItems d1)) = sortItems (filterMeta (sortItems d2)) :=
    List.eq_of_perm_of_sorted (hperm1.trans (hpermf.trans hperm2.symm)) hLT1 hLT2
  rw [checksumWith, checksumWith, dumpsDict, dumpsDict, hcanon]

/-- Witness for C10: two dictionaries with different insertion order
and different metadata fields, agreeing elsewhere, share a checksum. -/
theorem C10_checksum_agreement_witness :
    checksumWith (fun s => s) [("b", .int 2), ("a", .int 1), ("_id", .str "x")]
      = checksumWith (fun s => s) [("a", .int 1), ("b", .int 2), ("_version", .int 7)] := by
  refine C10_checksum_agreement (fun s => s) _ _ (by decide) (by decide) ?_
  intro k hk
  simp only [metaKeys, List.mem_cons, List.not_mem_nil, or_false] at hk
  push_neg at hk
  by_cases ha : "a" = k
  · subst ha
    simp [lookupKey]
  · by_cases hb : "b" = k
    · subst hb
      simp [lookupKey]
    · simp [lookupKey, ha, hb, Ne.symm hk.1, Ne.symm hk.2.1]
